import Mathlib

/-!
# Verification of the kubeapi-mcp generic Kubernetes resource-access layer

This development is a shallow embedding, in Lean 4, of the core of
`pkg/tools/kubernetes/kubernetes.go`: the resource-type resolver (`findGVR`),
the resource handlers (`getResources`, `applyResource`, `deleteResource`,
`patchResource`) and the custom-columns renderer (`FmtCustomColumns`).

The cluster API server, the YAML↔JSON converter and the REST mapper are
external collaborators: they are passed to the embedded handlers as explicit
function parameters, and the requests the handlers would send over the wire
are collected in an explicit trace, so that routing and ordering properties
can be stated about the handlers themselves.

Machine-level Go details that the claims do not touch (contexts, MCP content
wrapping) are elided; the control flow, string handling and error messages
follow the Go source line by line.
-/

set_option maxHeartbeats 1000000

namespace KubeapiMcp

/-- Group/Version/Resource coordinates, as in
`k8s.io/apimachinery/pkg/runtime/schema.GroupVersionResource`. -/
structure GroupVersionResource where
  group : String
  version : String
  resource : String
deriving DecidableEq, Repr

/-- One API resource from a discovery resource list, as in
`k8s.io/apimachinery/pkg/apis/meta/v1.APIResource` (the fields `findGVR` and
`apiResources` read). `name` is the plural, lowercase resource name. -/
structure APIResource where
  name : String
  singularName : String
  namespaced : Bool
  kind : String
  shortNames : List String
deriving DecidableEq, Repr

/-- One discovery resource list (`metav1.APIResourceList`): the resources
served under one group/version string. -/
structure APIResourceList where
  groupVersion : String
  resources : List APIResource
deriving DecidableEq, Repr

/-- Model of `strings.Count(s, sub)` for a one-character separator, as used by
`schema.ParseGroupVersion` (it only counts `/`). -/
def countChar (s : String) (c : Char) : Nat :=
  (s.toList.filter (· = c)).length

/-- Left-to-right, non-overlapping split of a character list at every
occurrence of `sep`, with fuel for termination (any fuel not below the
list's length yields Go's `strings.Split` behaviour for a non-empty
separator). -/
def goSplit (sep : List Char) : Nat → List Char → List (List Char)
  | _, [] => [[]]
  | 0, l => [l]
  | fuel + 1, x :: xs =>
    if sep.isPrefixOf (x :: xs) then
      [] :: goSplit sep fuel ((x :: xs).drop sep.length)
    else
      match goSplit sep fuel xs with
      | [] => [[x]]
      | s :: ss => (x :: s) :: ss

/-- Go's `strings.Split(s, sep)` for the non-empty separators the code uses
(`---`, `,`, `:`, `.`, `/`). -/
def goSplitStr (sep s : String) : List String :=
  (goSplit sep.toList s.toList.length s.toList).map fun l => ⟨l⟩

/-- Model of `schema.ParseGroupVersion`: `""` and `"/"` parse to the empty
group/version; no slash means a bare version; exactly one slash splits into
group and version; more slashes are an error. -/
def parseGroupVersion (gv : String) : Except String (String × String) :=
  if gv = "" ∨ gv = "/" then .ok ("", "")
  else
    match countChar gv '/' with
    | 0 => .ok ("", gv)
    | 1 =>
      match goSplitStr "/" gv with
      | [g, v] => .ok (g, v)
      | _ => .error ("unexpected GroupVersion string: " ++ gv)
    | _ => .error ("unexpected GroupVersion string: " ++ gv)

/-- The helper `contains` from kubernetes.go: membership of a string in a
slice. -/
def containsStr (slice : List String) (s : String) : Bool :=
  slice.any (· = s)

/-- The match test inside `findGVR`'s loop: the caller-supplied identifier
against Kind, plural name, singular name and short names, all
case-sensitively. -/
def resourceMatches (resourceKind : String) (r : APIResource) : Bool :=
  r.kind = resourceKind ∨ r.name = resourceKind ∨
    r.singularName = resourceKind ∨ containsStr r.shortNames resourceKind

/-- Inner loop of `findGVR` over one resource list. -/
def findGVRInList (groupVersion : String) (resourceKind : String) :
    List APIResource → Option (Except String GroupVersionResource)
  | [] => none
  | r :: rs =>
    if resourceMatches resourceKind r then
      some <| match parseGroupVersion groupVersion with
        | .error e =>
          .error ("failed to parse group version \"" ++ groupVersion ++ "\": " ++ e)
        | .ok (g, v) => .ok ⟨g, v, r.name⟩
    else findGVRInList groupVersion resourceKind rs

/-- Embedding of `findGVR` from kubernetes.go: walk the discovery listing (the result of
`ServerPreferredResources`) in order; the first resource whose kind, plural
name, singular name or one of its short names equals the identifier wins, and
its list's group/version is parsed into the returned coordinates; if nothing
matches, report `resource kind "<identifier>" not found`. -/
def findGVR (lists : List APIResourceList) (resourceKind : String) :
    Except String GroupVersionResource :=
  match lists with
  | [] => .error ("resource kind \"" ++ resourceKind ++ "\" not found")
  | l :: ls =>
    match findGVRInList l.groupVersion resourceKind l.resources with
    | some r => r
    | none => findGVR ls resourceKind

/-- The discovery listing flattened to (groupVersion, resource) pairs in
discovery order; used to state first-match properties of `findGVR`. -/
def flatResources (lists : List APIResourceList) : List (String × APIResource) :=
  lists.flatMap fun l => l.resources.map fun r => (l.groupVersion, r)

end KubeapiMcp

namespace KubeapiMcp

/-- What `findGVR` returns for the first matching resource of a list whose
group/version string is `gv`. -/
def gvrResult (gv : String) (r : APIResource) : Except String GroupVersionResource :=
  match parseGroupVersion gv with
  | .error e => .error ("failed to parse group version \"" ++ gv ++ "\": " ++ e)
  | .ok (g, v) => .ok ⟨g, v, r.name⟩

theorem findGVRInList_eq (gv k : String) (rs : List APIResource) :
    findGVRInList gv k rs = (rs.find? (resourceMatches k)).map (gvrResult gv) := by
  induction rs with
  | nil => rfl
  | cons r rs ih =>
    by_cases h : resourceMatches k r
    · simp [findGVRInList, List.find?_cons, h, gvrResult]
    · simp [findGVRInList, List.find?_cons, h, ih]

theorem flatResources_cons (l : APIResourceList) (ls : List APIResourceList) :
    flatResources (l :: ls) =
      (l.resources.map fun r => (l.groupVersion, r)) ++ flatResources ls := by
  simp [flatResources]

theorem findGVR_eq_find? (lists : List APIResourceList) (k : String) :
    findGVR lists k =
      match (flatResources lists).find? (fun p => resourceMatches k p.2) with
      | none => .error ("resource kind \"" ++ k ++ "\" not found")
      | some (gv, r) => gvrResult gv r := by
  induction lists with
  | nil => rfl
  | cons l ls ih =>
    rw [flatResources_cons, List.find?_append, findGVR, findGVRInList_eq]
    have hcomp : (List.map (fun r => (l.groupVersion, r)) l.resources).find?
        (fun p => resourceMatches k p.2) =
        (l.resources.find? (resourceMatches k)).map (fun r => (l.groupVersion, r)) := by
      rw [List.find?_map]
      rfl
    rcases h : l.resources.find? (resourceMatches k) with _ | r
    · rw [h] at hcomp
      simp only [hcomp, Option.map_none', Option.none_or]
      exact ih
    · rw [h] at hcomp
      simp [hcomp]

end KubeapiMcp

namespace KubeapiMcp

/-- C1: for every identifier `k` and fixed discovery listing, `findGVR`
returns the coordinates (parsed group/version of the containing resource
list, plural resource name) of the first resource in discovery order whose
kind, plural name, singular name or a short name equals `k` exactly and
case-sensitively, and returns the `resource kind "<k>" not found` error
carrying the literal identifier when no candidate field of any resource
matches. -/
theorem findGVR_resolves_first_match (lists : List APIResourceList) (k : String) :
    ((flatResources lists).find? (fun p => resourceMatches k p.2) = none →
      findGVR lists k = .error ("resource kind \"" ++ k ++ "\" not found"))
    ∧ ∀ gv r g v,
        (flatResources lists).find? (fun p => resourceMatches k p.2) = some (gv, r) →
        parseGroupVersion gv = .ok (g, v) →
        findGVR lists k = .ok ⟨g, v, r.name⟩ := by
  constructor
  · intro h
    rw [findGVR_eq_find?, h]
  · intro gv r g v hfind hparse
    rw [findGVR_eq_find?, hfind]
    simp [gvrResult, hparse]

/-- A concrete discovery listing: a first non-matching resource, then the
Pod resource with kind `Pod`, plural `pods`, singular `pod`, short name
`po`. -/
def podListing : List APIResourceList :=
  [⟨"v1", [⟨"services", "service", true, "Service", ["svc"]⟩,
           ⟨"pods", "pod", true, "Pod", ["po"]⟩]⟩,
   ⟨"apps/v1", [⟨"deployments", "deployment", true, "Deployment", ["deploy"]⟩]⟩]

/-- Witness for C1: on `podListing`, the identifiers `pod`, `pods` and `po`
all resolve to the same coordinates, and an identifier matching nothing
yields the not-found error carrying it. -/
theorem findGVR_resolves_first_match_witness :
    findGVR podListing "pod" = .ok ⟨"", "v1", "pods"⟩ ∧
    findGVR podListing "pods" = .ok ⟨"", "v1", "pods"⟩ ∧
    findGVR podListing "po" = .ok ⟨"", "v1", "pods"⟩ ∧
    findGVR podListing "zebra" = .error "resource kind \"zebra\" not found" := by
  refine ⟨?_, ?_, ?_, ?_⟩
  · exact (findGVR_resolves_first_match podListing "pod").2 "v1"
      ⟨"pods", "pod", true, "Pod", ["po"]⟩ "" "v1" rfl rfl
  · exact (findGVR_resolves_first_match podListing "pods").2 "v1"
      ⟨"pods", "pod", true, "Pod", ["po"]⟩ "" "v1" rfl rfl
  · exact (findGVR_resolves_first_match podListing "po").2 "v1"
      ⟨"pods", "pod", true, "Pod", ["po"]⟩ "" "v1" rfl rfl
  · exact (findGVR_resolves_first_match podListing "zebra").1 rfl

end KubeapiMcp

namespace KubeapiMcp

/-- A schema-less JSON-like value: the shape of `unstructured.Unstructured`
object trees as seen by the custom-columns renderer. -/
inductive JValue where
  | null : JValue
  | bool : Bool → JValue
  | num : Int → JValue
  | str : String → JValue
  | arr : List JValue → JValue
  | obj : List (String × JValue) → JValue

mutual

/-- Go `fmt.Sprintf("%v", v)` on the decoded value, as used for a
custom-columns cell (scalars render as themselves; composite values use
Go's bracketed forms). -/
def fmtValue : JValue → String
  | .null => "<nil>"
  | .bool b => if b then "true" else "false"
  | .num i => toString i
  | .str s => s
  | .arr xs => "[" ++ String.intercalate " " (fmtList xs) ++ "]"
  | .obj fs => "map[" ++ String.intercalate " " (fmtFields fs) ++ "]"

def fmtList : List JValue → List String
  | [] => []
  | x :: xs => fmtValue x :: fmtList xs

def fmtFields : List (String × JValue) → List String
  | [] => []
  | (k, v) :: fs => (k ++ ":" ++ fmtValue v) :: fmtFields fs

end

/-- One step of a parsed jsonpath expression: a field access or a `[*]`
wildcard. -/
inductive PathSeg where
  | field : String → PathSeg
  | wildcard : PathSeg
deriving DecidableEq, Repr

/-- Characters accepted in a field name of the modelled jsonpath fragment. -/
def isIdentChar (c : Char) : Bool :=
  c.isAlphanum ∨ c = '-' ∨ c = '_'

/-- Peel trailing `[*]` groups off a reversed character list, returning the
remaining reversed base and the number of groups. -/
def peelStars : List Char → List Char × Nat
  | ']' :: '*' :: '[' :: rest =>
    let (b, n) := peelStars rest
    (b, n + 1)
  | l => (l, 0)

/-- Parse one dot-separated token, `name` optionally followed by `[*]`
groups, into path segments. -/
def parseTok (tok : String) : Except String (List PathSeg) :=
  let (revBase, stars) := peelStars tok.toList.reverse
  let base : String := ⟨revBase.reverse⟩
  if base ≠ "" ∧ revBase.all isIdentChar then
    .ok (PathSeg.field base :: List.replicate stars PathSeg.wildcard)
  else .error ("unrecognized character in expression: " ++ tok)

/-- Modelled from `k8s.io/client-go/util/jsonpath`: parsing of the template
`{<path>}` that `FmtCustomColumns` builds around a column's path, restricted
to the dotted-field fragment `.name.name[*]...` the renderer documents
(`HEADER:JSONPATH` columns). A path outside this fragment is a parse
error. -/
def parsePath (path : String) : Except String (List PathSeg) :=
  match goSplitStr "." path with
  | "" :: tok :: toks =>
    (tok :: toks).foldlM (fun acc t => (parseTok t).map (acc ++ ·)) []
  | _ => .error ("unrecognized character in expression: " ++ path)

/-- Field access on one value, as in the library's `evalField`: only a map
yields a result; a missing key or a non-map yields nothing. -/
def stepField (k : String) (v : JValue) : Option JValue :=
  match v with
  | .obj fs => (fs.find? (fun p => p.1 = k)).map (·.2)
  | _ => none

/-- Modelled from `jsonpath.JSONPath.evalField`/`evalWildcard` with
`allowMissingKeys = false` (the renderer never calls `AllowMissingKeys`): a
field step over a non-empty input that matches nothing is the error
`<key> is not found`; over an empty input it passes the empty list through;
a wildcard step flattens arrays and map values and never errors. -/
def evalSeg (vals : List JValue) : PathSeg → Except String (List JValue)
  | .field k =>
    if vals.isEmpty then .ok []
    else
      let res := vals.filterMap (stepField k)
      if res.isEmpty then .error (k ++ " is not found") else .ok res
  | .wildcard =>
    .ok (vals.flatMap fun v =>
      match v with
      | .arr xs => xs
      | .obj fs => fs.map (·.2)
      | _ => [])

/-- Modelled from `jsonpath.JSONPath.FindResults` on the fragment above: run
the segments from the root; the result is the final value list (the
library's `results[0]`). -/
def findResults (segs : List PathSeg) (root : JValue) : Except String (List JValue) :=
  segs.foldlM evalSeg [root]

/-- Header/path splitting of `FmtCustomColumns`: each comma-separated column
must split on `:` into exactly two parts. -/
def parseColumns : List String → Except String (List String × List String)
  | [] => .ok ([], [])
  | col :: cols =>
    match goSplitStr ":" col with
    | [h, p] => (parseColumns cols).map fun hp => (h :: hp.1, p :: hp.2)
    | _ => .error ("invalid custom column format: " ++ col)

/-- One cell of the custom-columns table: parse the column's path, evaluate
it on the item, render the first result or `<none>` when the result list is
empty; parse and evaluation errors are wrapped exactly as in the Go code. -/
def renderCell (item : JValue) (path : String) : Except String String :=
  match parsePath path with
  | .error e => .error ("failed to parse jsonpath: " ++ e)
  | .ok segs =>
    match findResults segs item with
    | .error e => .error ("failed to find results: " ++ e)
    | .ok (v :: _) => .ok (fmtValue v)
    | .ok [] => .ok "<none>"

/-- The cells of one row, in column order; the first failing cell fails the
row. -/
def renderRow (paths : List String) (item : JValue) : Except String (List String) :=
  match paths with
  | [] => .ok []
  | p :: ps =>
    match renderCell item p with
    | .error e => .error e
    | .ok c => (renderRow ps item).map (c :: ·)

/-- The rows of the table, one per item, in item order; the first failing
row fails the render. -/
def renderRows (paths : List String) : List JValue → Except String (List String)
  | [] => .ok []
  | it :: its =>
    match renderRow paths it with
    | .error e => .error e
    | .ok cells => (renderRows paths its).map ((String.intercalate "\t" cells ++ "\n") :: ·)

/-- Embedding of `FmtCustomColumns` from kubernetes.go: split the spec on `,`, each column
on `:` (exactly two parts), emit the tab-joined header line, then one
tab-joined row per item, evaluating each column's jsonpath on the item; the
first failing parse or evaluation fails the whole render. -/
def FmtCustomColumns (items : List JValue) (customColumns : String) :
    Except String String :=
  match parseColumns (goSplitStr "," customColumns) with
  | .error e => .error e
  | .ok (headers, paths) =>
    match renderRows paths items with
    | .error e => .error e
    | .ok rows => .ok (String.intercalate "\t" headers ++ "\n" ++ String.join rows)

end KubeapiMcp


namespace KubeapiMcp

theorem renderCell_of_parse {path : String} {segs : List PathSeg}
    (hp : parsePath path = .ok segs) (item : JValue) :
    renderCell item path =
      match findResults segs item with
      | .error e => .error ("failed to find results: " ++ e)
      | .ok (v :: _) => .ok (fmtValue v)
      | .ok [] => .ok "<none>" := by
  unfold renderCell
  rw [hp]

theorem renderRows_all_none {path : String} {segs : List PathSeg}
    (hp : parsePath path = .ok segs) :
    ∀ items : List JValue, (∀ it ∈ items, findResults segs it = .ok []) →
      renderRows [path] items = .ok (items.map fun _ => "<none>\n") := by
  intro items
  induction items with
  | nil => intro _; rfl
  | cons it its ih =>
    intro h
    have hcell : renderCell it path = .ok "<none>" := by
      rw [renderCell_of_parse hp, h it (by simp)]
    simp only [renderRows, renderRow, hcell, ih (fun y hy => h y (by simp [hy])),
      Except.map, List.map_cons]
    rfl

/-- C5 counterexample: rendering one object with the single column
`IMG:.spec.nonexistent`, where the object's `spec` lacks the key, does not
return the header row plus a `<none>` row — the jsonpath evaluation of a
missing key is an error (the renderer never enables `AllowMissingKeys`) and
the whole render fails. -/
theorem fmtCustomColumns_missing_key_fails :
    FmtCustomColumns [JValue.obj [("spec", JValue.obj [("replicas", JValue.num 1)])]]
        "IMG:.spec.nonexistent"
      = .error "failed to find results: nonexistent is not found" ∧
    FmtCustomColumns [JValue.obj [("spec", JValue.obj [("replicas", JValue.num 1)])]]
        "IMG:.spec.nonexistent" ≠ .ok "IMG\n<none>\n" := by
  refine ⟨rfl, fun h => ?_⟩
  rw [show FmtCustomColumns [JValue.obj [("spec", JValue.obj [("replicas", JValue.num 1)])]]
        "IMG:.spec.nonexistent"
      = .error "failed to find results: nonexistent is not found" from rfl] at h
  exact Except.noConfusion h

/-- C5 amended: a column path that evaluates without error to zero results
renders the literal cell `<none>` for every object and the render succeeds;
but a missing intermediate key is an evaluation error, and it — like a
malformed path — fails the whole render with no partial output. -/
theorem fmtCustomColumns_none_and_errors :
    (∀ hdr path : String, ∀ items : List JValue, ∀ segs : List PathSeg,
      goSplitStr "," (hdr ++ ":" ++ path) = [hdr ++ ":" ++ path] →
      goSplitStr ":" (hdr ++ ":" ++ path) = [hdr, path] →
      parsePath path = .ok segs →
      (∀ it ∈ items, findResults segs it = .ok []) →
      FmtCustomColumns items (hdr ++ ":" ++ path) =
        .ok (hdr ++ "\n" ++ String.join (items.map fun _ => "<none>\n")))
    ∧ (∀ hdr path : String, ∀ it : JValue, ∀ rest : List JValue,
        ∀ segs : List PathSeg, ∀ e : String,
      goSplitStr "," (hdr ++ ":" ++ path) = [hdr ++ ":" ++ path] →
      goSplitStr ":" (hdr ++ ":" ++ path) = [hdr, path] →
      parsePath path = .ok segs →
      findResults segs it = .error e →
      FmtCustomColumns (it :: rest) (hdr ++ ":" ++ path) =
        .error ("failed to find results: " ++ e))
    ∧ (∀ hdr path : String, ∀ it : JValue, ∀ rest : List JValue, ∀ e : String,
      goSplitStr "," (hdr ++ ":" ++ path) = [hdr ++ ":" ++ path] →
      goSplitStr ":" (hdr ++ ":" ++ path) = [hdr, path] →
      parsePath path = .error e →
      FmtCustomColumns (it :: rest) (hdr ++ ":" ++ path) =
        .error ("failed to parse jsonpath: " ++ e)) := by
  refine ⟨?_, ?_, ?_⟩
  · intro hdr path items segs h1 h2 hp hres
    unfold FmtCustomColumns
    rw [h1]
    simp only [parseColumns, h2, Except.map]
    rw [renderRows_all_none hp items hres]
    rfl
  · intro hdr path it rest segs e h1 h2 hp hres
    unfold FmtCustomColumns
    rw [h1]
    simp only [parseColumns, h2, Except.map]
    have hcell : renderCell it path = .error ("failed to find results: " ++ e) := by
      rw [renderCell_of_parse hp, hres]
    simp only [renderRows, renderRow, hcell]
  · intro hdr path it rest e h1 h2 hp
    unfold FmtCustomColumns
    rw [h1]
    simp only [parseColumns, h2, Except.map]
    have hcell : renderCell it path = .error ("failed to parse jsonpath: " ++ e) := by
      unfold renderCell
      rw [hp]
    simp only [renderRows, renderRow, hcell]

/-- Witness for the amended C5: an empty `containers` list makes
`.spec.containers[*].image` evaluate to zero results and render `<none>`; a
missing key and a malformed path fail the corresponding renders whole. -/
theorem fmtCustomColumns_none_and_errors_witness :
    FmtCustomColumns [JValue.obj [("spec", JValue.obj [("containers", JValue.arr [])])]]
        ("IMG" ++ ":" ++ ".spec.containers[*].image") = .ok "IMG\n<none>\n" ∧
    FmtCustomColumns [JValue.obj [("spec", JValue.obj [])]] ("N" ++ ":" ++ ".spec.missing")
      = .error "failed to find results: missing is not found" ∧
    FmtCustomColumns [JValue.null] ("N" ++ ":" ++ "bad path")
      = .error "failed to parse jsonpath: unrecognized character in expression: bad path" := by
  refine ⟨?_, ?_, ?_⟩
  · exact fmtCustomColumns_none_and_errors.1 "IMG" ".spec.containers[*].image"
      [JValue.obj [("spec", JValue.obj [("containers", JValue.arr [])])]]
      [PathSeg.field "spec", PathSeg.field "containers", PathSeg.wildcard, PathSeg.field "image"]
      rfl rfl rfl (by intro it hit; rw [List.mem_singleton] at hit; rw [hit]; rfl)
  · exact fmtCustomColumns_none_and_errors.2.1 "N" ".spec.missing"
      (JValue.obj [("spec", JValue.obj [])]) []
      [PathSeg.field "spec", PathSeg.field "missing"] "missing is not found" rfl rfl rfl rfl
  · exact fmtCustomColumns_none_and_errors.2.2 "N" "bad path" JValue.null []
      "unrecognized character in expression: bad path" rfl rfl rfl

end KubeapiMcp

namespace KubeapiMcp

/-- Go's `strings.TrimSpace`. -/
def trimSpace (s : String) : String :=
  ⟨((s.toList.dropWhile Char.isWhitespace).reverse.dropWhile Char.isWhitespace).reverse⟩

/-- One of the three Kubernetes wire patch types selected by
`patchResource`'s `switch`. -/
inductive PatchType where
  | strategic : PatchType
  | merge : PatchType
  | json : PatchType
deriving DecidableEq, Repr

/-- A request routed through the dynamic client. The namespace position
records the endpoint choice: `none` is the cluster-scoped chain
(`h.dyn.Resource(gvr)`), `some ns` the namespaced chain
(`h.dyn.Resource(gvr).Namespace(ns)`). -/
inductive KRequest where
  | get : GroupVersionResource → Option String → String → KRequest
  | list : GroupVersionResource → Option String → String → KRequest
  | delete : GroupVersionResource → Option String → String → KRequest
  | patch : GroupVersionResource → Option String → String → PatchType → String → KRequest
deriving DecidableEq, Repr

/-- Arguments of the get-resources tool (`getResourcesArgs`). `nspace` is
the `namespace` argument (a reserved word in Lean). -/
structure GetResourcesArgs where
  resource : String
  name : String
  nspace : String
  labelSelector : String
  customColumns : String
deriving DecidableEq, Repr

/-- Embedding of `getResources` from kubernetes.go: resolve the identifier with
`findGVR`; a non-empty name issues a single-object Get (namespaced iff the
namespace argument is non-empty), otherwise a List carrying the label
selector; then render either custom columns or the YAML documents joined by
`---\n`. The external cluster is the `getFn`/`listFn` parameters and
`toYaml` is the JSON-marshal-then-YAML rendering of one object; the issued
request is returned alongside the result. -/
def getResources (lists : List APIResourceList)
    (getFn : GroupVersionResource → Option String → String → Except String JValue)
    (listFn : GroupVersionResource → Option String → String → Except String (List JValue))
    (toYaml : JValue → String) (args : GetResourcesArgs) :
    List KRequest × Except String String :=
  match findGVR lists args.resource with
  | .error e => ([], .error e)
  | .ok gvr =>
    let ns : Option String := if args.nspace ≠ "" then some args.nspace else none
    let render : List JValue → Except String String := fun resources =>
      if args.customColumns ≠ "" then
        FmtCustomColumns resources args.customColumns
      else
        .ok (String.intercalate "---\n" (resources.map toYaml))
    if args.name ≠ "" then
      let req := KRequest.get gvr ns args.name
      match getFn gvr ns args.name with
      | .error e => ([req], .error e)
      | .ok obj => ([req], render [obj])
    else
      let req := KRequest.list gvr ns args.labelSelector
      match listFn gvr ns args.labelSelector with
      | .error e => ([req], .error e)
      | .ok items => ([req], render items)

/-- Arguments of the delete-resource tool (`deleteResourceArgs`). -/
structure DeleteResourceArgs where
  resource : String
  name : String
  nspace : String
deriving DecidableEq, Repr

/-- Embedding of `deleteResource` from kubernetes.go: resolve the identifier, issue the
Delete (namespaced iff the namespace argument is non-empty), propagate a
server error verbatim, and otherwise confirm with
`Resource <identifier>/<name> deleted.` built from the caller-supplied
identifier. -/
def deleteResource (lists : List APIResourceList)
    (deleteFn : GroupVersionResource → Option String → String → Except String Unit)
    (args : DeleteResourceArgs) : List KRequest × Except String String :=
  match findGVR lists args.resource with
  | .error e => ([], .error e)
  | .ok gvr =>
    let ns : Option String := if args.nspace ≠ "" then some args.nspace else none
    let req := KRequest.delete gvr ns args.name
    match deleteFn gvr ns args.name with
    | .error e => ([req], .error e)
    | .ok _ =>
      ([req], .ok ("Resource " ++ args.resource ++ "/" ++ args.name ++ " deleted."))

/-- Arguments of the patch-resource tool (`patchResourceArgs`). -/
structure PatchResourceArgs where
  resource : String
  name : String
  nspace : String
  patch : String
  patchType : String
deriving DecidableEq, Repr

/-- The `switch args.PatchType` of `patchResource`: the three recognized
literals select their wire patch type, the empty string keeps the
strategic-merge default, anything else is the `invalid patch type`
validation error. -/
def selectPatchType (s : String) : Except String PatchType :=
  match s with
  | "json" => .ok .json
  | "merge" => .ok .merge
  | "strategic" => .ok .strategic
  | "" => .ok .strategic
  | _ => .error ("invalid patch type \"" ++ s ++ "\"")

/-- Embedding of `patchResource` from kubernetes.go: resolve the identifier, validate the
patch-type string, convert the YAML patch body to JSON, then issue the Patch
(namespaced iff the namespace argument is non-empty) and render the
post-patch object as YAML. -/
def patchResource (lists : List APIResourceList)
    (yamlToJSON : String → Except String String)
    (patchFn : GroupVersionResource → Option String → String → PatchType → String →
      Except String JValue)
    (toYaml : JValue → String)
    (args : PatchResourceArgs) : List KRequest × Except String String :=
  match findGVR lists args.resource with
  | .error e => ([], .error e)
  | .ok gvr =>
    match selectPatchType args.patchType with
    | .error e => ([], .error e)
    | .ok pt =>
      match yamlToJSON args.patch with
      | .error e => ([], .error ("failed to convert patch from YAML to JSON: " ++ e))
      | .ok body =>
        let ns : Option String := if args.nspace ≠ "" then some args.nspace else none
        let req := KRequest.patch gvr ns args.name pt body
        match patchFn gvr ns args.name pt body with
        | .error e => ([req], .error e)
        | .ok obj => ([req], .ok (toYaml obj))

end KubeapiMcp

namespace KubeapiMcp

/-- C10: when a non-empty name is supplied, the label selector has no
effect on `getResources`: two calls differing only in the selector issue the
same single-object Get request and return the same result, for every
discovery listing and every behaviour of the cluster. -/
theorem getResources_name_ignores_selector (lists : List APIResourceList)
    (getFn : GroupVersionResource → Option String → String → Except String JValue)
    (listFn : GroupVersionResource → Option String → String → Except String (List JValue))
    (toYaml : JValue → String) (args : GetResourcesArgs) (sel₁ sel₂ : String)
    (hname : args.name ≠ "") :
    getResources lists getFn listFn toYaml { args with labelSelector := sel₁ } =
      getResources lists getFn listFn toYaml { args with labelSelector := sel₂ } := by
  unfold getResources
  rcases findGVR lists args.resource with e | gvr
  · rfl
  · simp only [hname, if_true, ne_eq, not_false_iff]

/-- Witness for C10 at a concrete listing, name and two different
selectors. -/
theorem getResources_name_ignores_selector_witness :
    getResources podListing (fun _ _ _ => .ok JValue.null) (fun _ _ _ => .ok [])
        (fun _ => "y") ⟨"pods", "p1", "default", "app=a", ""⟩ =
      getResources podListing (fun _ _ _ => .ok JValue.null) (fun _ _ _ => .ok [])
        (fun _ => "y") ⟨"pods", "p1", "default", "app=b", ""⟩ :=
  getResources_name_ignores_selector podListing (fun _ _ _ => .ok JValue.null)
    (fun _ _ _ => .ok []) (fun _ => "y") ⟨"pods", "p1", "default", "", ""⟩
    "app=a" "app=b" (by decide)

/-- C3: `patchResource` with the empty patch-type string behaves identically
to `patchResource` with `strategic`: same wire patch type, same request,
same result — for every listing, converter, cluster behaviour and
arguments. -/
theorem patchResource_default_strategic (lists : List APIResourceList)
    (yamlToJSON : String → Except String String)
    (patchFn : GroupVersionResource → Option String → String → PatchType → String →
      Except String JValue)
    (toYaml : JValue → String) (resource name nspace patch : String) :
    patchResource lists yamlToJSON patchFn toYaml ⟨resource, name, nspace, patch, ""⟩ =
      patchResource lists yamlToJSON patchFn toYaml
        ⟨resource, name, nspace, patch, "strategic"⟩ := rfl

end KubeapiMcp

namespace KubeapiMcp

theorem selectPatchType_invalid (s : String) (h1 : s ≠ "json") (h2 : s ≠ "merge")
    (h3 : s ≠ "strategic") (h4 : s ≠ "") :
    selectPatchType s = .error ("invalid patch type \"" ++ s ++ "\"") := by
  unfold selectPatchType
  split
  · exact absurd rfl h1
  · exact absurd rfl h2
  · exact absurd rfl h3
  · exact absurd rfl h4
  · rfl

/-- C7: for every patch-type string other than the case-sensitive literals
`strategic`, `merge`, `json` or the empty string, `patchResource` (with the
identifier resolvable) returns the `invalid patch type` validation error and
its request trace is empty: no patch request is issued, so nothing reaches
the server and the target resource is untouched. -/
theorem patchResource_invalid_type_no_request (lists : List APIResourceList)
    (yamlToJSON : String → Except String String)
    (patchFn : GroupVersionResource → Option String → String → PatchType → String →
      Except String JValue)
    (toYaml : JValue → String) (args : PatchResourceArgs) (gvr : GroupVersionResource)
    (hres : findGVR lists args.resource = .ok gvr)
    (h1 : args.patchType ≠ "json") (h2 : args.patchType ≠ "merge")
    (h3 : args.patchType ≠ "strategic") (h4 : args.patchType ≠ "") :
    patchResource lists yamlToJSON patchFn toYaml args =
      ([], .error ("invalid patch type \"" ++ args.patchType ++ "\"")) := by
  unfold patchResource
  rw [hres, selectPatchType_invalid args.patchType h1 h2 h3 h4]

/-- Witness for C7: the capitalized literal `Strategic` is rejected with no
request issued. -/
theorem patchResource_invalid_type_no_request_witness :
    patchResource podListing (fun s => .ok s) (fun _ _ _ _ _ => .ok JValue.null)
        (fun _ => "y") ⟨"pods", "p1", "", "spec:\n  replicas: 3", "Strategic"⟩ =
      ([], .error "invalid patch type \"Strategic\"") :=
  patchResource_invalid_type_no_request podListing (fun s => .ok s)
    (fun _ _ _ _ _ => .ok JValue.null) (fun _ => "y")
    ⟨"pods", "p1", "", "spec:\n  replicas: 3", "Strategic"⟩ ⟨"", "v1", "pods"⟩
    rfl (by decide) (by decide) (by decide) (by decide)

/-- C6 counterexample: with the Pod discovery listing, deleting with the
caller-supplied identifier `Pod` (the kind) and an accepting server yields
the confirmation `Resource Pod/x deleted.` — built from the identifier
verbatim — which differs from `Resource pods/x deleted.`, the form built
from the resource's plural, lowercase name that the claim specifies. -/
theorem deleteResource_confirmation_not_plural :
    deleteResource podListing (fun _ _ _ => .ok ()) ⟨"Pod", "x", ""⟩ =
      ([KRequest.delete ⟨"", "v1", "pods"⟩ none "x"], .ok "Resource Pod/x deleted.") ∧
    (deleteResource podListing (fun _ _ _ => .ok ()) ⟨"Pod", "x", ""⟩).2 ≠
      .ok "Resource pods/x deleted." := by
  refine ⟨rfl, fun h => ?_⟩
  rw [show (deleteResource podListing (fun _ _ _ => .ok ()) ⟨"Pod", "x", ""⟩).2 =
    .ok "Resource Pod/x deleted." from rfl] at h
  have := Except.ok.inj h
  exact absurd this (by decide)

/-- C6 amended: when the server accepts the deletion, `deleteResource`
returns exactly `Resource <identifier>/<name> deleted.` built from the
caller-supplied identifier string (which equals the plural form only when
the caller passed the plural); when the delete call fails — e.g. the named
resource does not exist — the server's error is returned verbatim and no
success confirmation is produced. -/
theorem deleteResource_confirmation_or_error (lists : List APIResourceList)
    (deleteFn : GroupVersionResource → Option String → String → Except String Unit)
    (args : DeleteResourceArgs) (gvr : GroupVersionResource)
    (hres : findGVR lists args.resource = .ok gvr) :
    (deleteFn gvr (if args.nspace ≠ "" then some args.nspace else none) args.name = .ok () →
      deleteResource lists deleteFn args =
        ([KRequest.delete gvr (if args.nspace ≠ "" then some args.nspace else none) args.name],
         .ok ("Resource " ++ args.resource ++ "/" ++ args.name ++ " deleted.")))
    ∧ ∀ e, deleteFn gvr (if args.nspace ≠ "" then some args.nspace else none) args.name
          = .error e →
        deleteResource lists deleteFn args =
          ([KRequest.delete gvr (if args.nspace ≠ "" then some args.nspace else none) args.name],
           .error e) := by
  constructor
  · intro hok
    unfold deleteResource
    rw [hres]
    simp only [hok]
  · intro e herr
    unfold deleteResource
    rw [hres]
    simp only [herr]

/-- Witness for the amended C6: an accepting server produces the
identifier-based confirmation; a `NotFound` server error is returned
verbatim, not a confirmation. -/
theorem deleteResource_confirmation_or_error_witness :
    deleteResource podListing (fun _ _ _ => .ok ()) ⟨"pods", "p1", "ns1"⟩ =
      ([KRequest.delete ⟨"", "v1", "pods"⟩ (some "ns1") "p1"],
       .ok "Resource pods/p1 deleted.") ∧
    deleteResource podListing (fun _ _ _ => .error "pods \"p1\" not found")
        ⟨"pods", "p1", "ns1"⟩ =
      ([KRequest.delete ⟨"", "v1", "pods"⟩ (some "ns1") "p1"],
       .error "pods \"p1\" not found") := by
  constructor
  · exact (deleteResource_confirmation_or_error podListing (fun _ _ _ => .ok ())
      ⟨"pods", "p1", "ns1"⟩ ⟨"", "v1", "pods"⟩ rfl).1 rfl
  · exact (deleteResource_confirmation_or_error podListing
      (fun _ _ _ => .error "pods \"p1\" not found")
      ⟨"pods", "p1", "ns1"⟩ ⟨"", "v1", "pods"⟩ rfl).2 "pods \"p1\" not found" rfl

end KubeapiMcp

namespace KubeapiMcp

/-- A discovery listing containing only the cluster-scoped Node resource
(`namespaced = false`). -/
def nodeListing : List APIResourceList :=
  [⟨"v1", [⟨"nodes", "node", false, "Node", ["no"]⟩]⟩]

/-- C4 counterexample: for the cluster-scoped Node kind, a Get with the
non-empty namespace `default` is routed to the namespaced endpoint
(`Namespace("default")` in the request) and the call succeeds — the
namespace argument is neither ignored (the request is not the cluster-scoped
one) nor rejected with an error. The discovered scope is never consulted:
`findGVR` does not even return it. -/
theorem getResources_cluster_scoped_namespaced_route :
    getResources nodeListing (fun _ _ _ => .ok JValue.null) (fun _ _ _ => .ok [])
        (fun _ => "node-yaml") ⟨"Node", "node1", "default", "", ""⟩ =
      ([KRequest.get ⟨"", "v1", "nodes"⟩ (some "default") "node1"], .ok "node-yaml") ∧
    KRequest.get (⟨"", "v1", "nodes"⟩ : GroupVersionResource) (some "default") "node1" ≠
      KRequest.get ⟨"", "v1", "nodes"⟩ none "node1" := by
  exact ⟨rfl, by decide⟩

/-- C4 amended: endpoint routing in `getResources`, `deleteResource` and
`patchResource` is decided solely by whether the namespace argument is
non-empty; a non-empty namespace always selects the namespaced endpoint —
also for kinds whose discovery entry is cluster-scoped — with no local
validation against the resource's scope. -/
theorem handlers_route_by_namespace_only (lists : List APIResourceList)
    (gvr : GroupVersionResource) :
    (∀ getFn listFn toYaml (args : GetResourcesArgs),
      findGVR lists args.resource = .ok gvr → args.nspace ≠ "" →
      (getResources lists getFn listFn toYaml args).1 =
        [if args.name ≠ "" then KRequest.get gvr (some args.nspace) args.name
         else KRequest.list gvr (some args.nspace) args.labelSelector])
    ∧ (∀ deleteFn (args : DeleteResourceArgs),
      findGVR lists args.resource = .ok gvr → args.nspace ≠ "" →
      (deleteResource lists deleteFn args).1 =
        [KRequest.delete gvr (some args.nspace) args.name])
    ∧ (∀ yamlToJSON patchFn toYaml (args : PatchResourceArgs) pt body,
      findGVR lists args.resource = .ok gvr → args.nspace ≠ "" →
      selectPatchType args.patchType = .ok pt → yamlToJSON args.patch = .ok body →
      (patchResource lists yamlToJSON patchFn toYaml args).1 =
        [KRequest.patch gvr (some args.nspace) args.name pt body]) := by
  refine ⟨?_, ?_, ?_⟩
  · intro getFn listFn toYaml args hres hns
    unfold getResources
    rw [hres]
    simp only [hns, ne_eq, not_false_iff, if_true]
    by_cases hname : args.name = ""
    · simp only [hname, ne_eq, not_true, if_false, ite_false]
      rcases listFn gvr (some args.nspace) args.labelSelector <;> simp
    · simp only [hname, ne_eq, not_false_iff, if_true]
      rcases getFn gvr (some args.nspace) args.name <;> simp
  · intro deleteFn args hres hns
    unfold deleteResource
    rw [hres]
    simp only [hns, ne_eq, not_false_iff, if_true]
    rcases deleteFn gvr (some args.nspace) args.name <;> simp
  · intro yamlToJSON patchFn toYaml args pt body hres hns hpt hbody
    unfold patchResource
    rw [hres, hpt, hbody]
    simp only [hns, ne_eq, not_false_iff, if_true]
    rcases patchFn gvr (some args.nspace) args.name pt body <;> simp

/-- Witness for the amended C4: concrete namespaced routing of a Get, a
Delete and a Patch against the cluster-scoped Node listing. -/
theorem handlers_route_by_namespace_only_witness :
    (getResources nodeListing (fun _ _ _ => .ok JValue.null) (fun _ _ _ => .ok [])
        (fun _ => "y") ⟨"nodes", "", "default", "a=b", ""⟩).1 =
      [KRequest.list ⟨"", "v1", "nodes"⟩ (some "default") "a=b"] ∧
    (deleteResource nodeListing (fun _ _ _ => .ok ()) ⟨"no", "node1", "default"⟩).1 =
      [KRequest.delete ⟨"", "v1", "nodes"⟩ (some "default") "node1"] ∧
    (patchResource nodeListing (fun s => .ok s) (fun _ _ _ _ _ => .ok JValue.null)
        (fun _ => "y") ⟨"node", "node1", "default", "p", "merge"⟩).1 =
      [KRequest.patch ⟨"", "v1", "nodes"⟩ (some "default") "node1" PatchType.merge "p"] := by
  refine ⟨?_, ?_, ?_⟩
  · exact (handlers_route_by_namespace_only nodeListing ⟨"", "v1", "nodes"⟩).1
      (fun _ _ _ => .ok JValue.null) (fun _ _ _ => .ok []) (fun _ => "y")
      ⟨"nodes", "", "default", "a=b", ""⟩ rfl (by decide)
  · exact (handlers_route_by_namespace_only nodeListing ⟨"", "v1", "nodes"⟩).2.1
      (fun _ _ _ => .ok ()) ⟨"no", "node1", "default"⟩ rfl (by decide)
  · exact (handlers_route_by_namespace_only nodeListing ⟨"", "v1", "nodes"⟩).2.2
      (fun s => .ok s) (fun _ _ _ _ _ => .ok JValue.null) (fun _ => "y")
      ⟨"node", "node1", "default", "p", "merge"⟩ PatchType.merge "p" rfl (by decide) rfl rfl

end KubeapiMcp

namespace KubeapiMcp

/-- The envelope of one unmarshalled manifest document
(`unstructured.Unstructured` as `applyResource` reads it): `apiVersion` and
`kind` drive GVK resolution, `nspace`/`name` are `metadata.namespace` (empty
when absent) and `metadata.name`, and `payload` stands for the rest of the
document body. -/
structure UObj where
  apiVersion : String
  kind : String
  nspace : String
  name : String
  payload : String
deriving DecidableEq, Repr

/-- The `meta.RESTMapping` result: the resource coordinates and whether the
mapping's scope is namespace-scoped
(`mapping.Scope.Name() == meta.RESTScopeNameNamespace`). -/
structure RESTMapping where
  gvr : GroupVersionResource
  namespaceScoped : Bool
deriving DecidableEq, Repr

/-- Model of `schema.FromAPIVersionAndKind` as used by `obj.GroupVersionKind()`: the
document's own apiVersion parsed into group and version (empty on a parse
failure), paired with its kind. Returns `(group, version, kind)`. -/
def fromAPIVersionAndKind (apiVersion kind : String) : String × String × String :=
  match parseGroupVersion apiVersion with
  | .ok (g, v) => (g, v, kind)
  | .error _ => ("", "", kind)

/-- One server-side apply call as `applyResource` issues it: the mapped
coordinates, the endpoint (`some ns` iff the mapping is namespace-scoped,
carrying the object's own namespace), the object's name, the object itself
and the fixed `metav1.ApplyOptions`. -/
structure ApplyRequest where
  gvr : GroupVersionResource
  ns : Option String
  name : String
  obj : UObj
  fieldManager : String
  force : Bool
deriving DecidableEq, Repr

/-- The per-document body of `applyResource`'s loop: YAML→JSON conversion,
unmarshalling, REST mapping of the document's own GVK, then the one apply
call, each failure wrapped exactly as in the Go code. Returns the apply
calls issued for this document (at most one) and the document's result. -/
def stepDoc (yamlToJSON : String → Except String String)
    (unmarshal : String → Except String UObj)
    (mapper : String → String → String → Except String RESTMapping)
    (applyFn : ApplyRequest → Except String UObj)
    (part : String) : List ApplyRequest × Except String UObj :=
  match yamlToJSON part with
  | .error e => ([], .error ("failed to convert manifest from YAML to JSON: " ++ e))
  | .ok jsonData =>
    match unmarshal jsonData with
    | .error e => ([], .error ("failed to unmarshal manifest: " ++ e))
    | .ok obj =>
      let gvk := fromAPIVersionAndKind obj.apiVersion obj.kind
      match mapper gvk.1 gvk.2.2 gvk.2.1 with
      | .error e => ([], .error ("failed to get REST mapping: " ++ e))
      | .ok mapping =>
        let req : ApplyRequest :=
          ⟨mapping.gvr, if mapping.namespaceScoped then some obj.nspace else none,
           obj.name, obj, "kubeapi-mcp", true⟩
        match applyFn req with
        | .error e => ([req], .error e)
        | .ok applied => ([req], .ok applied)

/-- The document loop of `applyResource`: process the split documents in
input order, stop at the first failing document, and collect the post-apply
YAML of each successful document in order (`toYaml` is the JSON-marshal plus
JSON→YAML rendering). -/
def applyDocs (yamlToJSON : String → Except String String)
    (unmarshal : String → Except String UObj)
    (mapper : String → String → String → Except String RESTMapping)
    (applyFn : ApplyRequest → Except String UObj)
    (toYaml : UObj → String) : List String → List ApplyRequest × Except String (List String)
  | [] => ([], .ok [])
  | part :: parts =>
    let s := stepDoc yamlToJSON unmarshal mapper applyFn part
    match s.2 with
    | .error e => (s.1, .error e)
    | .ok applied =>
      let rest := applyDocs yamlToJSON unmarshal mapper applyFn toYaml parts
      (s.1 ++ rest.1, rest.2.map (toYaml applied :: ·))

/-- The document splitting of `applyResource`: split the manifest on every
occurrence of `---`, trim each part, skip blank parts. -/
def splitManifest (manifest : String) : List String :=
  ((goSplitStr "---" manifest).map trimSpace).filter (· ≠ "")

/-- Embedding of `applyResource` from kubernetes.go: split the manifest, run the document
loop, and on full success join the post-apply YAML documents with `---\n`. -/
def applyResource (yamlToJSON : String → Except String String)
    (unmarshal : String → Except String UObj)
    (mapper : String → String → String → Except String RESTMapping)
    (applyFn : ApplyRequest → Except String UObj)
    (toYaml : UObj → String) (manifest : String) :
    List ApplyRequest × Except String String :=
  let r := applyDocs yamlToJSON unmarshal mapper applyFn toYaml (splitManifest manifest)
  (r.1, r.2.map (String.intercalate "---\n"))

end KubeapiMcp

namespace KubeapiMcp

theorem applyDocs_forall₂_ok (yamlToJSON : String → Except String String)
    (unmarshal : String → Except String UObj)
    (mapper : String → String → String → Except String RESTMapping)
    (applyFn : ApplyRequest → Except String UObj) (toYaml : UObj → String)
    {parts : List String} {ps : List (ApplyRequest × UObj)}
    (h : List.Forall₂
      (fun part p => stepDoc yamlToJSON unmarshal mapper applyFn part = ([p.1], .ok p.2))
      parts ps) :
    applyDocs yamlToJSON unmarshal mapper applyFn toYaml parts =
      (ps.map Prod.fst, .ok (ps.map fun p => toYaml p.2)) := by
  induction h with
  | nil => rfl
  | cons h₁ h₂ ih =>
    simp only [applyDocs, h₁, ih, List.map_cons, Except.map, List.cons_append,
      List.nil_append]

theorem applyDocs_abort (yamlToJSON : String → Except String String)
    (unmarshal : String → Except String UObj)
    (mapper : String → String → String → Except String RESTMapping)
    (applyFn : ApplyRequest → Except String UObj) (toYaml : UObj → String)
    {parts₁ : List String} {ps : List (ApplyRequest × UObj)} (d : String)
    (parts₂ : List String) {e : String}
    (h : List.Forall₂
      (fun part p => stepDoc yamlToJSON unmarshal mapper applyFn part = ([p.1], .ok p.2))
      parts₁ ps)
    (hd : (stepDoc yamlToJSON unmarshal mapper applyFn d).2 = .error e) :
    applyDocs yamlToJSON unmarshal mapper applyFn toYaml (parts₁ ++ d :: parts₂) =
      (ps.map Prod.fst ++ (stepDoc yamlToJSON unmarshal mapper applyFn d).1, .error e) := by
  induction h with
  | nil =>
    simp only [List.nil_append, List.map_nil, applyDocs, hd]
  | cons h₁ h₂ ih =>
    simp only [List.cons_append, applyDocs, h₁, List.append_eq, List.map_cons,
      List.nil_append]
    rw [ih]
    rfl

/-- C2: `applyResource` processes the split documents (split on `---`, blank
parts skipped) sequentially in input order with at most one apply call per
document. On full success the post-apply YAML documents come back joined in
input order; at the first failing document it returns that document's error
at once, so the apply calls issued are exactly those of the earlier
documents (which remain applied on the server) plus the failing document's
own attempt, and no later document is ever attempted. -/
theorem applyResource_sequential_abort (yamlToJSON : String → Except String String)
    (unmarshal : String → Except String UObj)
    (mapper : String → String → String → Except String RESTMapping)
    (applyFn : ApplyRequest → Except String UObj) (toYaml : UObj → String) :
    (∀ (m : String) (ps : List (ApplyRequest × UObj)),
      List.Forall₂
        (fun part p => stepDoc yamlToJSON unmarshal mapper applyFn part = ([p.1], .ok p.2))
        (splitManifest m) ps →
      applyResource yamlToJSON unmarshal mapper applyFn toYaml m =
        (ps.map Prod.fst, .ok (String.intercalate "---\n" (ps.map fun p => toYaml p.2))))
    ∧ (∀ (m : String) (parts₁ : List String) (d : String) (parts₂ : List String)
        (ps : List (ApplyRequest × UObj)) (e : String),
      splitManifest m = parts₁ ++ d :: parts₂ →
      List.Forall₂
        (fun part p => stepDoc yamlToJSON unmarshal mapper applyFn part = ([p.1], .ok p.2))
        parts₁ ps →
      (stepDoc yamlToJSON unmarshal mapper applyFn d).2 = .error e →
      applyResource yamlToJSON unmarshal mapper applyFn toYaml m =
        (ps.map Prod.fst ++ (stepDoc yamlToJSON unmarshal mapper applyFn d).1, .error e)) := by
  constructor
  · intro m ps h
    unfold applyResource
    rw [applyDocs_forall₂_ok yamlToJSON unmarshal mapper applyFn toYaml h]
    rfl
  · intro m parts₁ d parts₂ ps e hsplit h hd
    unfold applyResource
    rw [hsplit, applyDocs_abort yamlToJSON unmarshal mapper applyFn toYaml d parts₂ h hd]
    rfl

/-- A YAML→JSON converter that fails exactly on the document `bad`. -/
def yamlToJSON0 : String → Except String String :=
  fun s => if s = "bad" then .error "boom" else .ok s

/-- An unmarshaller producing a `v1 ConfigMap` envelope in namespace `ns0`
whose name and payload are the document text. -/
def unmarshal0 : String → Except String UObj :=
  fun s => .ok ⟨"v1", "ConfigMap", "ns0", s, s⟩

/-- A REST mapper sending everything to namespaced `v1 configmaps`. -/
def mapper0 : String → String → String → Except String RESTMapping :=
  fun _ _ _ => .ok ⟨⟨"", "v1", "configmaps"⟩, true⟩

/-- A server that accepts every apply and returns the object unchanged. -/
def applyFn0 : ApplyRequest → Except String UObj :=
  fun r => .ok r.obj

/-- A YAML rendering of the applied object. -/
def toYaml0 : UObj → String := fun o => o.name ++ "\n"

/-- The apply request `applyResource` issues for document `s` under the
concrete collaborators above. -/
def req0 (s : String) : ApplyRequest :=
  ⟨⟨"", "v1", "configmaps"⟩, some "ns0", s, ⟨"v1", "ConfigMap", "ns0", s, s⟩,
   "kubeapi-mcp", true⟩

/-- Witness for C2: a fully-good two-document manifest applies both
documents in order; a three-document manifest whose middle document is bad
issues exactly the first document's apply and the error, never touching the
third. -/
theorem applyResource_sequential_abort_witness :
    applyResource yamlToJSON0 unmarshal0 mapper0 applyFn0 toYaml0 "a\n---\nb" =
      ([req0 "a", req0 "b"], .ok "a\n---\nb\n") ∧
    applyResource yamlToJSON0 unmarshal0 mapper0 applyFn0 toYaml0 "a\n---\nbad\n---\nc" =
      ([req0 "a"], .error "failed to convert manifest from YAML to JSON: boom") := by
  constructor
  · exact (applyResource_sequential_abort yamlToJSON0 unmarshal0 mapper0 applyFn0 toYaml0).1
      "a\n---\nb" [(req0 "a", ⟨"v1", "ConfigMap", "ns0", "a", "a"⟩),
        (req0 "b", ⟨"v1", "ConfigMap", "ns0", "b", "b"⟩)]
      (List.Forall₂.cons rfl (List.Forall₂.cons rfl List.Forall₂.nil))
  · exact (applyResource_sequential_abort yamlToJSON0 unmarshal0 mapper0 applyFn0 toYaml0).2
      "a\n---\nbad\n---\nc" ["a"] "bad" ["c"]
      [(req0 "a", ⟨"v1", "ConfigMap", "ns0", "a", "a"⟩)]
      "failed to convert manifest from YAML to JSON: boom" rfl
      (List.Forall₂.cons rfl List.Forall₂.nil) rfl

end KubeapiMcp

namespace KubeapiMcp

/-- C8 counterexample: two multi-document manifests — one failing at its
first document, the other at its second — return the **same** error value
(the failing document's own converter error, with no index information), so
the error returned to the caller does not report which document index
failed; only the request traces differ (no apply issued vs. the first
document's apply issued and left in place). -/
theorem applyResource_error_lacks_index :
    (applyResource yamlToJSON0 unmarshal0 mapper0 applyFn0 toYaml0 "bad\n---\ngood").2 =
      (applyResource yamlToJSON0 unmarshal0 mapper0 applyFn0 toYaml0 "good\n---\nbad").2 ∧
    (applyResource yamlToJSON0 unmarshal0 mapper0 applyFn0 toYaml0 "bad\n---\ngood").2 =
      .error "failed to convert manifest from YAML to JSON: boom" ∧
    (applyResource yamlToJSON0 unmarshal0 mapper0 applyFn0 toYaml0 "bad\n---\ngood").1 = [] ∧
    (applyResource yamlToJSON0 unmarshal0 mapper0 applyFn0 toYaml0 "good\n---\nbad").1 =
      [req0 "good"] :=
  ⟨rfl, rfl, rfl, rfl⟩

/-- C8 amended: when a document of a multi-document apply fails, the error
returned to the caller is the failing document's own (wrapped) error,
verbatim and carrying no document index, while the apply calls issued are
exactly those of the earlier successful documents — left in place — plus the
failing document's own attempt if it reached the apply call. -/
theorem applyResource_error_verbatim (yamlToJSON : String → Except String String)
    (unmarshal : String → Except String UObj)
    (mapper : String → String → String → Except String RESTMapping)
    (applyFn : ApplyRequest → Except String UObj) (toYaml : UObj → String)
    (m : String) (parts₁ : List String) (d : String) (parts₂ : List String)
    (ps : List (ApplyRequest × UObj)) (e : String)
    (hsplit : splitManifest m = parts₁ ++ d :: parts₂)
    (h : List.Forall₂
      (fun part p => stepDoc yamlToJSON unmarshal mapper applyFn part = ([p.1], .ok p.2))
      parts₁ ps)
    (hd : (stepDoc yamlToJSON unmarshal mapper applyFn d).2 = .error e) :
    (applyResource yamlToJSON unmarshal mapper applyFn toYaml m).2 = .error e ∧
    (applyResource yamlToJSON unmarshal mapper applyFn toYaml m).1 =
      ps.map Prod.fst ++ (stepDoc yamlToJSON unmarshal mapper applyFn d).1 := by
  unfold applyResource
  rw [hsplit, applyDocs_abort yamlToJSON unmarshal mapper applyFn toYaml d parts₂ h hd]
  exact ⟨rfl, rfl⟩

/-- Witness for the amended C8: a manifest whose second document fails
returns that document's error and has issued exactly the first document's
apply. -/
theorem applyResource_error_verbatim_witness :
    (applyResource yamlToJSON0 unmarshal0 mapper0 applyFn0 toYaml0 "x\n---\nbad").2 =
      .error "failed to convert manifest from YAML to JSON: boom" ∧
    (applyResource yamlToJSON0 unmarshal0 mapper0 applyFn0 toYaml0 "x\n---\nbad").1 =
      [req0 "x"] := by
  have h := applyResource_error_verbatim yamlToJSON0 unmarshal0 mapper0 applyFn0 toYaml0
    "x\n---\nbad" ["x"] "bad" []
    [(req0 "x", ⟨"v1", "ConfigMap", "ns0", "x", "x"⟩)]
    "failed to convert manifest from YAML to JSON: boom" rfl
    (List.Forall₂.cons rfl List.Forall₂.nil) rfl
  exact ⟨h.1, h.2⟩

theorem mem_stepDoc_trace (yamlToJSON : String → Except String String)
    (unmarshal : String → Except String UObj)
    (mapper : String → String → String → Except String RESTMapping)
    (applyFn : ApplyRequest → Except String UObj)
    (part : String) (r : ApplyRequest)
    (hr : r ∈ (stepDoc yamlToJSON unmarshal mapper applyFn part).1) :
    r.fieldManager = "kubeapi-mcp" ∧ r.force = true ∧
    ∃ mapping : RESTMapping,
      mapper (fromAPIVersionAndKind r.obj.apiVersion r.obj.kind).1
          (fromAPIVersionAndKind r.obj.apiVersion r.obj.kind).2.2
          (fromAPIVersionAndKind r.obj.apiVersion r.obj.kind).2.1 = .ok mapping ∧
      r.gvr = mapping.gvr ∧
      r.ns = (if mapping.namespaceScoped then some r.obj.nspace else none) ∧
      r.name = r.obj.name := by
  unfold stepDoc at hr
  rcases hY : yamlToJSON part with e | j <;> simp only [hY] at hr
  · exact absurd hr (List.not_mem_nil r)
  rcases hU : unmarshal j with e | obj <;> simp only [hU] at hr
  · exact absurd hr (List.not_mem_nil r)
  rcases hM : mapper (fromAPIVersionAndKind obj.apiVersion obj.kind).1
      (fromAPIVersionAndKind obj.apiVersion obj.kind).2.2
      (fromAPIVersionAndKind obj.apiVersion obj.kind).2.1 with e | mapping <;>
    simp only [hM] at hr
  · exact absurd hr (List.not_mem_nil r)
  rcases hA : applyFn ⟨mapping.gvr,
      if mapping.namespaceScoped then some obj.nspace else none,
      obj.name, obj, "kubeapi-mcp", true⟩ with e | applied <;>
    simp only [hA] at hr <;>
    rw [List.mem_singleton] at hr <;> subst hr <;>
    exact ⟨rfl, rfl, mapping, hM, rfl, rfl, rfl⟩

theorem mem_applyDocs_trace (yamlToJSON : String → Except String String)
    (unmarshal : String → Except String UObj)
    (mapper : String → String → String → Except String RESTMapping)
    (applyFn : ApplyRequest → Except String UObj) (toYaml : UObj → String)
    (r : ApplyRequest) :
    ∀ parts : List String,
      r ∈ (applyDocs yamlToJSON unmarshal mapper applyFn toYaml parts).1 →
      ∃ part, r ∈ (stepDoc yamlToJSON unmarshal mapper applyFn part).1 := by
  intro parts
  induction parts with
  | nil => intro hr; exact absurd hr (List.not_mem_nil r)
  | cons part rest ih =>
    intro hr
    unfold applyDocs at hr
    rcases hs : (stepDoc yamlToJSON unmarshal mapper applyFn part).2 with e | applied <;>
      simp only [hs] at hr
    · exact ⟨part, hr⟩
    · rcases List.mem_append.mp hr with h | h
      · exact ⟨part, h⟩
      · exact ih h

/-- C9: every apply call issued by `applyResource` carries the fixed field
manager `kubeapi-mcp` and `Force = true`, and its coordinates come from the
REST mapping of the request's own object's `apiVersion` and `kind` (the
handler has no caller-supplied identifier input at all), its endpoint from
the mapping's scope plus the object's own namespace, and its name from the
object's own `metadata.name`. -/
theorem applyResource_fixed_manager_force (yamlToJSON : String → Except String String)
    (unmarshal : String → Except String UObj)
    (mapper : String → String → String → Except String RESTMapping)
    (applyFn : ApplyRequest → Except String UObj) (toYaml : UObj → String)
    (m : String) (r : ApplyRequest)
    (hr : r ∈ (applyResource yamlToJSON unmarshal mapper applyFn toYaml m).1) :
    r.fieldManager = "kubeapi-mcp" ∧ r.force = true ∧
    ∃ mapping : RESTMapping,
      mapper (fromAPIVersionAndKind r.obj.apiVersion r.obj.kind).1
          (fromAPIVersionAndKind r.obj.apiVersion r.obj.kind).2.2
          (fromAPIVersionAndKind r.obj.apiVersion r.obj.kind).2.1 = .ok mapping ∧
      r.gvr = mapping.gvr ∧
      r.ns = (if mapping.namespaceScoped then some r.obj.nspace else none) ∧
      r.name = r.obj.name := by
  obtain ⟨part, hpart⟩ := mem_applyDocs_trace yamlToJSON unmarshal mapper applyFn toYaml r
    (splitManifest m) hr
  exact mem_stepDoc_trace yamlToJSON unmarshal mapper applyFn part r hpart

/-- Witness for C9 at a concrete one-document manifest and its issued apply
request. -/
theorem applyResource_fixed_manager_force_witness :
    req0 "a" ∈ (applyResource yamlToJSON0 unmarshal0 mapper0 applyFn0 toYaml0 "a").1 ∧
    (req0 "a").fieldManager = "kubeapi-mcp" ∧ (req0 "a").force = true ∧
    ∃ mapping : RESTMapping,
      mapper0 (fromAPIVersionAndKind (req0 "a").obj.apiVersion (req0 "a").obj.kind).1
          (fromAPIVersionAndKind (req0 "a").obj.apiVersion (req0 "a").obj.kind).2.2
          (fromAPIVersionAndKind (req0 "a").obj.apiVersion (req0 "a").obj.kind).2.1
        = .ok mapping ∧
      (req0 "a").gvr = mapping.gvr ∧
      (req0 "a").ns = (if mapping.namespaceScoped then some (req0 "a").obj.nspace else none) ∧
      (req0 "a").name = (req0 "a").obj.name := by
  have hmem : req0 "a" ∈ (applyResource yamlToJSON0 unmarshal0 mapper0 applyFn0 toYaml0 "a").1 := by
    rw [show (applyResource yamlToJSON0 unmarshal0 mapper0 applyFn0 toYaml0 "a").1 =
      [req0 "a"] from rfl]
    exact List.mem_singleton.mpr rfl
  exact ⟨hmem, applyResource_fixed_manager_force yamlToJSON0 unmarshal0 mapper0 applyFn0
    toYaml0 "a" (req0 "a") hmem⟩

end KubeapiMcp
